import Mathlib

/-!
Verification development for the Teams/Genie relay.

Shallow embedding of the two core source modules:
  * `src/databricks/genie_client.py` — polling protocol, attachment-based
    response assembly, query-result table rendering, feedback submission;
  * `src/bot/teams_bot.py` — conversation binding, mention stripping,
    message routing, feedback handling.

I/O boundaries (HTTP calls) are passed in explicitly: each remote call
becomes a parameter describing its outcome (an `Except`/`Option` value or
an oracle function), so every definition is executable.  Python `dict`
lookups with `.get` become `Option` fields; Python truthiness on strings
is modelled as `≠ ""`; Python `None` cells become an explicit constructor.
-/

/-! ## Python-style string primitives (over `List Char`) -/

/-- Python whitespace set used by `str.strip()` (ASCII part; the source only
ever strips ordinary spaces). -/
def pyIsSpace (c : Char) : Bool :=
  c = ' ' || c = '\t' || c = '\n' || c = '\r' || c = '\x0b' || c = '\x0c'

/-- Python `str.strip()`: drop whitespace from both ends. -/
def pyStrip (l : List Char) : List Char :=
  ((l.dropWhile pyIsSpace).reverse.dropWhile pyIsSpace).reverse

/-- Boolean "is prefix of" with definitional equations we control. -/
def isPre : List Char → List Char → Bool
  | [], _ => true
  | _ :: _, [] => false
  | p :: ps, c :: cs => (p == c) && isPre ps cs

/-- Boolean substring occurrence (contiguous) of `pat` inside `s`. -/
def containsSeq (pat : List Char) : List Char → Bool
  | [] => pat.isEmpty
  | c :: rest => isPre pat (c :: rest) || containsSeq pat rest

/-- Substring test lifted to `String` (`needle` occurs in `hay`). -/
def strContains (hay needle : String) : Bool :=
  containsSeq needle.data hay.data

/-- Fuel-driven worker for `replaceAll` (structural recursion on the fuel so
that the kernel can evaluate it; with fuel ≥ length of the text the fuel
never runs out, since a match consumes at least one character when the
pattern is non-empty). -/
def replaceAllFuel (pat rep : List Char) : Nat → List Char → List Char
  | 0, s => s
  | _ + 1, [] => []
  | fuel + 1, c :: rest =>
    if pat ≠ [] ∧ isPre pat (c :: rest) then
      rep ++ replaceAllFuel pat rep fuel ((c :: rest).drop pat.length)
    else
      c :: replaceAllFuel pat rep fuel rest

/-- Python `str.replace(pat, rep)`: replace every non-overlapping occurrence,
scanning left to right.  The source only calls this with non-empty `pat`
(mention texts pass a truthiness check and the hard-coded markup literal is
non-empty), so the empty-pattern behaviour is irrelevant; we make it the
identity to stay total. -/
def replaceAll (pat rep s : List Char) : List Char :=
  replaceAllFuel pat rep s.length s

/-- Python `sep.join(parts)`. -/
def joinWith (sep : String) : List String → String
  | [] => ""
  | [x] => x
  | x :: y :: xs => x ++ sep ++ joinWith sep (y :: xs)

/-- Python `str.ljust(w)`: pad on the right with spaces up to width `w`. -/
def ljust (s : String) (w : Nat) : String :=
  s ++ String.mk (List.replicate (w - s.length) ' ')

/-- Python slicing `s[:n]`. -/
def pyTake (n : Nat) (s : String) : String :=
  String.mk (s.data.take n)

/-! ## Query-result data model (`GET .../query-result` JSON)

Mirrors exactly the fields `_format_query_result` reads.  `Option` models
key absence; where the source checks truthiness of a dict/list value, the
falsy case is folded into `none` / guarded explicitly. -/

/-- A cell value of `result.data_array`.  `str(v)` of ints and strings is
their natural rendering; `null` is Python `None`, which the source renders
as `"NULL"` and counts with width 4. -/
inductive Scalar
  | null
  | str (s : String)
  | int (n : Int)
deriving DecidableEq

/-- Row rendering `str(val) if val is not None else "NULL"`. -/
def Scalar.render : Scalar → String
  | .null => "NULL"
  | .str s => s
  | .int n => toString n

/-- Width computation `len(str(val)) if val is not None else 4`. -/
def Scalar.width : Scalar → Nat
  | .null => 4
  | .str s => s.length
  | .int n => (toString n).length

/-- One entry of `manifest.schema.columns`; `col.get("name", f"col{i}")`. -/
structure ColumnSpec where
  name : Option String := none
deriving DecidableEq

/-- Model of `manifest.schema`; `columns = none` models key absence (the source
additionally requires the list truthy, i.e. non-empty, at the use site). -/
structure SchemaObj where
  columns : Option (List ColumnSpec) := none
deriving DecidableEq

/-- Model of `statement_response.manifest`. -/
structure ManifestObj where
  schema : Option SchemaObj := none
deriving DecidableEq

/-- Model of `statement_response.result`; `data_array = none` models key absence. -/
structure ResultObj where
  data_array : Option (List (List Scalar)) := none
deriving DecidableEq

/-- Model of `statement_response`.  `manifest`/`result` as read by the source
(`"result" in stmt and stmt["result"]`: an absent or falsy value is
`none`). -/
structure StmtResponse where
  manifest : Option ManifestObj := none
  result : Option ResultObj := none
deriving DecidableEq

/-- Payload of the per-attachment `query-result` call. -/
structure ResultData where
  statement_response : Option StmtResponse := none
deriving DecidableEq

/-- Column names from `manifest.schema.columns`:
`[col.get("name", f"col{i}") for i, col in enumerate(columns)]`, guarded by
`"columns" in manifest_schema and manifest_schema["columns"]`. -/
def manifestColumns (mf : Option ManifestObj) : List String :=
  match mf with
  | some m =>
    match m.schema with
    | some sch =>
      match sch.columns with
      | some cols =>
        if cols.isEmpty then []
        else cols.enum.map (fun ic => ic.2.name.getD ("col" ++ toString ic.1))
      | none => []
    | none => []
  | none => []

/-- One pass of the width loop: for each column index `i < len(col_widths)`
with a value in the row, `col_widths[i] = max(col_widths[i], width)`.  The
source iterates over `enumerate(row)` guarded by `i < len(col_widths)`,
which is exactly a positional `zip` update. -/
def updateWidths (ws : List Nat) (row : List Scalar) : List Nat :=
  ws.enum.map (fun iw =>
    match row[iw.1]? with
    | some v => max iw.2 v.width
    | none => iw.2)

/-- The code-block part of the rendered table: `hd` is `rows[0]` (used only
for the synthesized-columns fallback) and `shown` is `rows[:10]`, the rows
that are both measured and printed. -/
def tableBody (columns0 : List String) (hd : List Scalar)
    (shown : List (List Scalar)) : List String :=
  let columns :=
    if columns0.isEmpty then
      (List.range hd.length).map (fun i => "Column " ++ toString (i + 1))
    else columns0
  let col_widths := shown.foldl updateWidths (columns.map String.length)
  let header := joinWith " | " (List.zipWith ljust columns col_widths)
  let separator := joinWith "-+-" (col_widths.map (fun w => String.mk (List.replicate w '-')))
  let rowLines := shown.map (fun row =>
    joinWith " | " (List.zipWith (fun v w => ljust (Scalar.render v) w) row col_widths))
  ["\n```", header, separator] ++ rowLines ++ ["```"]

/-- Table rendering of `_format_query_result` once a non-empty `data_array`
has been found (`rows` is non-empty at every call site): the column-width
pass and the row-printing pass both range over `rows[:10]`, and a
`"(K more rows...)"` line is appended when more rows exist. -/
def renderTable (columns0 : List String) (rows : List (List Scalar)) : String :=
  let body := tableBody columns0 (rows.headD []) (rows.take 10)
  let lines :=
    if rows.length > 10 then
      body ++ ["\n(" ++ toString (rows.length - 10) ++ " more rows...)"]
    else body
  joinWith "\n" lines

/-- Embedding of `GenieClient._format_query_result`.  Returns `""` whenever the expected
shape is absent (the blanket `except` clause is unreachable in this total
model). -/
def format_query_result (rd : ResultData) : String :=
  match rd.statement_response with
  | none => ""
  | some stmt =>
    let columns0 := manifestColumns stmt.manifest
    match stmt.result with
    | none => ""
    | some res =>
      match res.data_array with
      | some (r0 :: rest) => renderTable columns0 (r0 :: rest)
      | _ => ""

/-! ## Message payload and attachment model (`GET .../messages/{id}` JSON) -/

/-- The `"text"` field of an attachment, as inspected by the source:
a dict with a `"content"` key, a dict without one, a plain string, or any
other value (ignored). -/
inductive TextField
  | dictWith (content : String)
  | dictWithout
  | plain (s : String)
  | other
deriving DecidableEq

/-- The `"query"` field of an attachment when it is a dict (the source checks
`isinstance(attachment["query"], dict)`; a non-dict value behaves like
absence and is folded into `none` at the `Attachment` level). -/
structure QueryObj where
  description : Option String := none
deriving DecidableEq

/-- One attachment dict.  Non-dict attachment list entries are modelled as
`none` in `MsgPayload.attachments` (the source skips them). -/
structure Attachment where
  query : Option QueryObj := none
  text : Option TextField := none
  attachment_id : Option String := none
  id : Option String := none
deriving DecidableEq

/-- Polled message payload.  `status`/`content` carry the result of
`data.get(..., "")`; `errorMessage` is `data.get("error", {}).get("message")`
with the `"Unknown error"` default applied at the use site, as in the
source. -/
structure MsgPayload where
  status : String := ""
  errorMessage : Option String := none
  content : String := ""
  attachments : List (Option Attachment) := []
deriving DecidableEq

/-- The explanatory text the source extracts from one attachment:
`query.description` when present and truthy, else the `text` field
(`.content` of a dict, or the string itself). -/
def attachmentText (a : Attachment) : Option String :=
  let fromQuery : Option String :=
    match a.query with
    | some q =>
      match q.description with
      | some d => if d ≠ "" then some d else none
      | none => none
    | none => none
  match fromQuery with
  | some d => some d
  | none =>
    match a.text with
    | some (.dictWith c) => some c
    | some (.plain s) => some s
    | some .dictWithout => none
    | some .other => none
    | none => none

/-- Python `attachment.get("attachment_id") or attachment.get("id")` (`or`:
the first operand wins iff truthy). -/
def effectiveAttachmentId (a : Attachment) : Option String :=
  match a.attachment_id with
  | some s => if s ≠ "" then some s else a.id
  | none => a.id

/-- Fallback apology of `_extract_response_with_attachments`. -/
def extractFallbackMessage : String :=
  "Sorry, I couldn\x27t extract Genie\x27s response. Please try again."

/-- Embedding of `GenieClient._extract_response_with_attachments`.  The per-attachment
`query-result` GET is the oracle `qres : attachment id → Option ResultData`
(`none` = non-200 response or a raised-and-logged exception; both make the
source skip the table part). -/
def extract_response_with_attachments (qres : String → Option ResultData)
    (message_data : MsgPayload) : String :=
  let user_question := message_data.content
  let parts := message_data.attachments.foldl (fun parts item =>
    match item with
    | none => parts
    | some a =>
      let parts :=
        match attachmentText a with
        | some tc =>
          if tc ≠ "" ∧ tc ≠ user_question ∧ tc.length > 10 then parts ++ [tc] else parts
        | none => parts
      match effectiveAttachmentId a with
      | some aid =>
        if aid = "" then parts
        else
          match qres aid with
          | some rd =>
            let t := format_query_result rd
            if t ≠ "" then parts ++ [t] else parts
          | none => parts
      | none => parts) []
  if parts ≠ [] then joinWith "\n\n" parts
  else extractFallbackMessage

/-! ## Polling loop (`GenieClient._poll_for_response`) -/

/-- Exception data for a failed HTTP interaction: either an
`aiohttp.ClientResponseError` (with status) or any other exception
(carrying its `str(e)` message). -/
structure ExcInfo where
  isClientResponseError : Bool := false
  httpStatus : Nat := 0
  message : String := ""
deriving DecidableEq

/-- Result of the polling loop: a returned answer string, or the final
attempt's exception propagating to the caller. -/
inductive PollResult
  | answer (text : String)
  | raised (e : ExcInfo)
deriving DecidableEq

/-- Timeout message returned after `max_attempts` non-terminal polls. -/
def pollTimeoutMessage : String :=
  "Sorry, Genie is taking too long to respond. Please try again."

/-- User-facing failure string for a `FAILED`/`ERROR` status; `em` is
`data.get("error", {}).get("message", "Unknown error")`. -/
def genieErrorMessage (em : String) : String :=
  "Sorry, Genie encountered an error: " ++ em

/-- The loop body of `_poll_for_response` over the remaining attempts' fetch
outcomes (one list element per loop iteration; the list length is the
remaining attempt budget).  An exception on any attempt but the last is
swallowed and retried; on the last attempt it is re-raised.  The
in-progress branch and the unknown-status branch both sleep and retry (the
`delay` only affects wall-clock time, which is not modelled). -/
def pollForResponse (qres : String → Option ResultData) :
    List (Except ExcInfo MsgPayload) → PollResult
  | [] => .answer pollTimeoutMessage
  | .error e :: rest =>
    if rest.isEmpty then .raised e else pollForResponse qres rest
  | .ok data :: rest =>
    if data.status ∈ (["COMPLETED", "SUCCESS", "FINISHED"] : List String) then
      .answer (extract_response_with_attachments qres data)
    else if data.status ∈ (["FAILED", "ERROR"] : List String) then
      .answer (genieErrorMessage (data.errorMessage.getD "Unknown error"))
    else if data.status ∈ (["EXECUTING", "QUERYING_HISTORY", "RUNNING", "PENDING"] : List String) then
      pollForResponse qres rest
    else
      pollForResponse qres rest

/-- Default `max_attempts` of `_poll_for_response`. -/
def pollDefaultMaxAttempts : Nat := 30

/-- Embedding of `_poll_for_response` with attempt budget `maxAttempts`, fetching attempt
`i`'s `GET` outcome from the oracle `fetch`. -/
def pollForResponseN (fetch : Nat → Except ExcInfo MsgPayload)
    (qres : String → Option ResultData) (maxAttempts : Nat) : PollResult :=
  pollForResponse qres ((List.range maxAttempts).map fetch)

/-! ## `GenieClient.ask_question` -/

/-- The dictionaries returned by the Genie client methods; `Option` fields
model keys that some return paths omit. -/
structure GenieResult where
  status : String := ""
  error : Option String := none
  response : Option String := none
  conversation_id : Option String := none
  message_id : Option String := none
deriving DecidableEq

/-- Outcome of the `start-conversation` POST, at the I/O boundary:
an HTTP error with a JSON body carrying `message`, an HTTP error with a
non-JSON body, a parsed 2xx response (ids read with `.get(..., "")`), or an
exception raised inside the `try` block. -/
inductive StartOutcome
  | jsonError (code : Nat) (message : String)
  | rawError (code : Nat) (body : String)
  | ok (conversation_id message_id : String)
  | exn (e : ExcInfo)
deriving DecidableEq

/-- User-facing body of the HTTP-400 branch of `ask_question`. -/
def askResp400 (space_id error_msg : String) : String :=
  "❌ Databricks Genie Error:\n\n" ++ error_msg ++ "\n\n" ++
  "**Possible causes:**\n" ++
  "• The Genie space ID \x27" ++ space_id ++ "\x27 may be invalid\n" ++
  "• The service principal may not have access to this space\n" ++
  "• The request format may be incorrect\n\n" ++
  "Please verify:\n" ++
  "1. Space ID is correct in your Function App settings\n" ++
  "2. Service principal is registered in Databricks Admin Console\n" ++
  "3. Service principal has \x27Can use\x27 permission on the Genie space"

/-- User-facing body of the HTTP-401 branch of `ask_question`. -/
def askResp401 (error_msg : String) : String :=
  "❌ Authentication failed:\n\n" ++ error_msg ++ "\n\n" ++
  "Please verify:\n" ++
  "• Service principal credentials (CLIENT_ID, CLIENT_SECRET, TENANT_ID) are correct\n" ++
  "• Service principal has \x27Azure Databricks\x27 API permission\n" ++
  "• Admin consent has been granted for the API permission"

/-- User-facing body of the HTTP-403 branch of `ask_question`. -/
def askResp403 (client_id error_msg : String) : String :=
  "❌ Access denied:\n\n" ++ error_msg ++ "\n\n" ++
  "The service principal does not have permission to access this Genie space.\n\n" ++
  "Please:\n" ++
  "1. Go to Databricks Admin Console → Service Principals\n" ++
  "2. Find or add service principal: " ++ client_id ++ "\n" ++
  "3. Go to Genie space settings and grant \x27Can use\x27 permission"

/-- User-facing body of the HTTP-404 branch of `ask_question`. -/
def askResp404 (space_id error_msg : String) : String :=
  "❌ Resource not found:\n\n" ++ error_msg ++ "\n\n" ++
  "The Genie space \x27" ++ space_id ++ "\x27 was not found.\n" ++
  "Please verify the DATABRICKS_GENIE_SPACE_ID in your Function App settings."

/-- The two `except` handlers of `ask_question`: `aiohttp.ClientResponseError`
gets a specific message, any other exception the generic one. -/
def askExceptBranch (e : ExcInfo) : GenieResult :=
  if e.isClientResponseError then
    { status := "error",
      error := some ("HTTP " ++ toString e.httpStatus ++ ": " ++ e.message),
      response := some "Sorry, I encountered an error contacting Databricks Genie. Please try again." }
  else
    { status := "error",
      error := some e.message,
      response := some ("Sorry, I encountered an error: " ++ e.message) }

/-- Embedding of `GenieClient.ask_question`.  `start` is the outcome of the
`start-conversation` POST; `fetch`/`qres` are the oracles consumed by the
polling loop (the `conversation_id` argument of the Python method only
feeds logging/URLs and is irrelevant to the data flow modelled here). -/
def ask_question (space_id client_id : String) (start : StartOutcome)
    (fetch : Nat → Except ExcInfo MsgPayload)
    (qres : String → Option ResultData) : GenieResult :=
  match start with
  | .jsonError code msg =>
    if code = 400 then
      { status := "error", error := some ("Bad Request: " ++ msg),
        response := some (askResp400 space_id msg) }
    else if code = 401 then
      { status := "error", error := some ("Unauthorized: " ++ msg),
        response := some (askResp401 msg) }
    else if code = 403 then
      { status := "error", error := some ("Forbidden: " ++ msg),
        response := some (askResp403 client_id msg) }
    else if code = 404 then
      { status := "error", error := some ("Not Found: " ++ msg),
        response := some (askResp404 space_id msg) }
    else
      { status := "error", error := some ("HTTP " ++ toString code ++ ": " ++ msg),
        response := some ("❌ Databricks Genie Error (" ++ toString code ++ "):\n\n" ++ msg) }
  | .rawError code body =>
    { status := "error", error := some ("HTTP " ++ toString code ++ ": " ++ body),
      response := some ("❌ Databricks Genie Error (" ++ toString code ++ "):\n\n" ++ pyTake 500 body) }
  | .exn e => askExceptBranch e
  | .ok conv_id msg_id =>
    if conv_id = "" ∨ msg_id = "" then
      { status := "error", error := some "Invalid response from Genie API",
        response := some "Sorry, I couldn\x27t start a conversation with Genie." }
    else
      match pollForResponseN fetch qres pollDefaultMaxAttempts with
      | .raised e => askExceptBranch e
      | .answer t =>
        { conversation_id := some conv_id, message_id := some msg_id,
          response := some t, status := "success" }

/-! ## Conversation binding map (`TeamsBot.conversations`) -/

/-- The in-memory `Dict[str, str]` mapping Teams conversation id to Genie
conversation id, modelled as an association list observed through
`get`/`set` (which match dict lookup/assignment semantics). -/
abbrev ConvMap := List (String × String)

/-- Lookup `self.conversations.get(k)`. -/
def ConvMap.get (m : ConvMap) (k : String) : Option String :=
  match m with
  | [] => none
  | p :: rest => if p.1 = k then some p.2 else ConvMap.get rest k

/-- Drop the (first) entry stored under key `k`. -/
def ConvMap.eraseKey (k : String) (m : ConvMap) : ConvMap :=
  match m with
  | [] => []
  | p :: rest => if p.1 = k then rest else p :: ConvMap.eraseKey k rest

/-- Assignment `self.conversations[k] = v` (dict assignment, observed through `get`). -/
def ConvMap.set (m : ConvMap) (k v : String) : ConvMap :=
  (k, v) :: ConvMap.eraseKey k m

/-- All stored Genie conversation ids are non-empty.  This holds for the
initially empty map and is preserved by every write the bot performs
(writes are guarded by Python truthiness of the stored id). -/
def ConvMap.wf (m : ConvMap) : Bool :=
  List.all m (fun p => p.2 ≠ "")

/-! ## Mention stripping (`TeamsBot._extract_user_message`) -/

/-- One element of `activity.entities`, holding exactly the keys the source
reads: `entity.get('type')`, `entity.get('text')`, and
`entity.get('mentioned', {}).get('name')`. -/
structure Entity where
  etype : Option String := none
  text : Option String := none
  mentionedName : Option String := none
deriving DecidableEq

/-- Python regex `\w` on the ASCII names the bot deals with. -/
def isWordChar (c : Char) : Bool :=
  c.isAlphanum || c = '_'

/-- Case-insensitive literal prefix match; returns the consumed text
characters (needed for the word-boundary test) and the remaining suffix. -/
def ciStrip : List Char → List Char → Option (List Char × List Char)
  | [], s => some ([], s)
  | _ :: _, [] => none
  | p :: ps, c :: cs =>
    if p.toLower = c.toLower then
      match ciStrip ps cs with
      | some (con, r) => some (c :: con, r)
      | none => none
    else none

/-- After the optional `@`, match the literal name (case-insensitively),
check the `\b` word boundary, then greedily consume `[:,-]*`.
Returns the suffix after the whole match. -/
def matchNameAt (name s : List Char) : Option (List Char) :=
  match ciStrip name s with
  | none => none
  | some (consumed, rest) =>
    match consumed.getLast? with
    | none => none
    | some prev =>
      let nextIsWord :=
        match rest.head? with
        | some nxt => isWordChar nxt
        | none => false
      if isWordChar prev ≠ nextIsWord then
        some (rest.dropWhile (fun c => c = ':' || c = ',' || c = '-'))
      else none

/-- The `@?` is greedy: try consuming a literal `@` first, then without. -/
def attemptAt (name rest : List Char) : Option (List Char) :=
  let withAt :=
    match rest with
    | '@' :: r2 => matchNameAt name r2
    | _ => none
  match withAt with
  | some suffix => some suffix
  | none => matchNameAt name rest

/-- Greedy `^\s*` with backtracking: try consuming `k` leading whitespace
characters, longest first. -/
def tryWs (name : List Char) : Nat → List Char → Option (List Char)
  | k, s =>
    match attemptAt name (s.drop k) with
    | some suffix => some suffix
    | none =>
      match k with
      | 0 => none
      | k' + 1 => tryWs name k' s

/-- The substitution `re.sub(rf'^\s*@?{re.escape(name)}\b[:,-]*', ' ', message, re.IGNORECASE)`:
the pattern is anchored, so at most one leading match is replaced by a
single space.  Empty names never reach this point (`if not name: continue`). -/
def subLeadingName (name s : List Char) : List Char :=
  if name.isEmpty then s
  else
    match tryWs name (s.takeWhile pyIsSpace).length s with
    | some suffix => ' ' :: suffix
    | none => s

/-- Embedding of `TeamsBot._extract_user_message`, given the raw `activity.text`, the
structured entities and the recipient (bot) display name (empty when
absent).  Python iterates `possible_names` as a `set`, whose order is
unspecified; the model fixes the collection order with duplicates removed,
which is one of the admissible executions. -/
def extract_user_message (text : String) (entities : List Entity)
    (recipientName : String) : String :=
  if text = "" then ""
  else
    let mention_texts := entities.foldl (fun acc e =>
      if e.etype = some "mention" then
        match e.text with
        | some t => if t ≠ "" then acc ++ [t] else acc
        | none => acc
      else acc) []
    let mention_names := entities.foldl (fun acc e =>
      if e.etype = some "mention" then
        match e.mentionedName with
        | some n => if n ≠ "" then acc ++ [n] else acc
        | none => acc
      else acc) []
    let m1 := mention_texts.foldl (fun m mt => replaceAll mt.data [' '] m) text.data
    let m2 := replaceAll "<at>Databricks Genie</at>".data [] m1
    let possible_names :=
      (mention_names ++ if recipientName ≠ "" then [recipientName] else []).eraseDups
    let m3 := possible_names.foldl (fun m n =>
      if n = "" then m else subLeadingName n.data m) m2
    String.mk (pyStrip m3)

/-! ## Message routing (`TeamsBot._on_message_activity`, lines 256–311) -/

/-- Activities the handler sends back to the user: a plain text message or
the feedback hero-card (which embeds the Genie conversation/message ids in
its button payloads). -/
inductive Sent
  | text (s : String)
  | feedbackCard (conversation_id message_id : String)
deriving DecidableEq

/-- Which Genie client method the handler invoked, with its arguments. -/
inductive CallMade
  | continued (remote_conversation_id user_text : String)
  | started (user_text : String)
deriving DecidableEq

/-- Embedding of `TeamsBot._send_response_with_feedback`: the text is always sent; the
feedback card only when both ids are truthy. -/
def send_response_with_feedback (response_text : String)
    (conversation_id message_id : Option String) : List Sent :=
  [.text response_text] ++
    (match conversation_id, message_id with
     | some c, some m => if c ≠ "" ∧ m ≠ "" then [.feedbackCard c m] else []
     | _, _ => [])

/-- Result of one run of the routing core. -/
structure MsgOutcome where
  conversations : ConvMap
  made : CallMade
  sent : List Sent
deriving DecidableEq

/-- The core of `TeamsBot._on_message_activity` after mention stripping and
the feedback-click check: look up the binding, continue or start the Genie
conversation (the two client calls are the oracles `cont`/`ask`), store the
binding when the start result carries a truthy `conversation_id`, then send
either the success response (with feedback buttons) or the error text.
`if genie_conversation_id:` is Python truthiness, so an empty stored id
behaves like an absent binding. -/
def on_message_activity_core (conversations : ConvMap)
    (conversation_id user_message : String)
    (ask : GenieResult) (cont : String → String → GenieResult) : MsgOutcome :=
  let stored := ConvMap.get conversations conversation_id
  let startNew : GenieResult × ConvMap × CallMade :=
    (ask,
     (match ask.conversation_id with
      | some c => if c ≠ "" then ConvMap.set conversations conversation_id c else conversations
      | none => conversations),
     .started user_message)
  let step :=
    match stored with
    | some rid =>
      if rid ≠ "" then (cont rid user_message, conversations, CallMade.continued rid user_message)
      else startNew
    | none => startNew
  let result := step.1
  let sent :=
    if result.status = "success" then
      send_response_with_feedback
        (result.response.getD "I received your question but got no response.")
        result.conversation_id result.message_id
    else
      [.text ("Sorry, I encountered an error: " ++ result.error.getD "Unknown error" ++
              "\n\nPlease make sure your Databricks Genie Space is properly configured.")]
  ⟨step.2.1, step.2.2, sent⟩

/-! ## Feedback round trip (`TeamsBot._handle_feedback`, `GenieClient.send_feedback`) -/

/-- The parsed feedback button payload, holding the keys `_handle_feedback`
reads with `.get`. -/
structure FeedbackData where
  rating : Option String := none
  conversation_id : Option String := none
  message_id : Option String := none
deriving DecidableEq

/-- Python truthiness of an optional string (absent or empty ⇒ falsy). -/
def truthyOpt (o : Option String) : Bool :=
  match o with
  | some s => s ≠ ""
  | none => false

/-- Embedding of `GenieClient.send_feedback`: upper-cases the rating, posts it, and maps
the outcome to a status dict.  Returns the result together with the issued
remote call's `(conversation_id, message_id, rating payload)`. -/
def send_feedback (conversation_id message_id rating : String)
    (remote : Except ExcInfo Unit) : GenieResult × (String × String × String) :=
  let rating_upper := rating.toUpper
  (match remote with
   | .ok _ => { status := "success" }
   | .error e => { status := "error", error := some e.message },
   (conversation_id, message_id, rating_upper))

/-- Result of one run of the feedback handler: the remote feedback call it
issued (if any) and the activities sent back. -/
structure FeedbackOutcome where
  remoteCall : Option (String × String × String)
  sent : List Sent
deriving DecidableEq

/-- Embedding of `TeamsBot._handle_feedback`: local validation
(`if not all([rating, conversation_id, message_id])`) rejects without any
remote call; otherwise the feedback is sent and the outcome reported. -/
def handle_feedback (fd : FeedbackData) (remote : Except ExcInfo Unit) :
    FeedbackOutcome :=
  if truthyOpt fd.rating ∧ truthyOpt fd.conversation_id ∧ truthyOpt fd.message_id then
    let rating := fd.rating.getD ""
    let conversation_id := fd.conversation_id.getD ""
    let message_id := fd.message_id.getD ""
    let rc := send_feedback conversation_id message_id rating remote
    if rc.1.status = "success" then ⟨some rc.2, [.text "Thanks for your feedback!"]⟩
    else ⟨some rc.2, [.text "Sorry, couldn\x27t record feedback."]⟩
  else ⟨none, [.text "Sorry, couldn\x27t record your feedback."]⟩

/-! ## Concrete fixtures used by witnesses and counterexamples -/

/-- In-progress statuses on which the loop sleeps and retries. -/
def progressStatuses : List String :=
  ["EXECUTING", "QUERYING_HISTORY", "RUNNING", "PENDING"]

/-- Query-result oracle that always fails (non-200 / exception). -/
def noQres : String → Option ResultData := fun _ => none

/-- A polled payload with a successful terminal status. -/
def pollDoneP : MsgPayload := { status := "COMPLETED" }

/-- A polled payload with an unrecognized status string. -/
def pollOddP : MsgPayload := { status := "WAITING_WEIRDLY" }

/-- A polled payload with a failed terminal status and no error payload. -/
def pollFailP : MsgPayload := { status := "FAILED" }

/-- Query-result payload with columns `["id","name"]` and rows
`[[1,"a"],[2,None]]` (the fixture of the C6 table-rendering property). -/
def c6Data : ResultData :=
  ⟨some ⟨some ⟨some ⟨some [⟨some "id"⟩, ⟨some "name"⟩]⟩⟩,
        some ⟨some [[.int 1, .str "a"], [.int 2, .null]]⟩⟩⟩

/-- Query-result payload with one column and 15 rows `[1] .. [15]`. -/
def c7Data : ResultData :=
  ⟨some ⟨some ⟨some ⟨some [⟨some "n"⟩]⟩⟩,
        some ⟨some ((List.range 15).map (fun i => [Scalar.int (i + 1)]))⟩⟩⟩

/-- Eleven single-cell rows (the tail of an 11-row fixture). -/
def c7wRest : List (List Scalar) := (List.range 10).map (fun i => [Scalar.int (i + 1)])

/-- An attachment whose explanatory text has exactly 10 characters. -/
def c5Attachment : Attachment := { text := some (.plain "0123456789") }

/-- A completed message carrying `c5Attachment`, asked with question `"q"`. -/
def c5Payload : MsgPayload :=
  { status := "COMPLETED", content := "q", attachments := [some c5Attachment] }

/-- An attachment whose explanatory text has more than 10 characters. -/
def c5wAttachment : Attachment :=
  { text := some (.plain "a sufficiently long explanation") }

/-- Classifier for the erroring start-conversation outcomes of claim C4:
an HTTP error (JSON or not), an exception, or a 2xx response missing one of
the two ids (the "Invalid response from Genie API" branch). -/
def isStartError : StartOutcome → Bool
  | .ok c m => c = "" || m = ""
  | _ => true

/-- A poll fetch oracle that raises on every attempt. -/
def fetchBoom : Nat → Except ExcInfo MsgPayload := fun _ => .error ⟨false, 0, "boom"⟩

/-- A start-conversation outcome that raised a generic exception. -/
def startExn : StartOutcome := .exn ⟨false, 0, "boom"⟩

/-- A canned successful `ask_question` result. -/
def askOkC3 : GenieResult :=
  { status := "success", response := some "ans",
    conversation_id := some "c1", message_id := some "m1" }

/-- A canned `continue_conversation` oracle. -/
def contC3 : String → String → GenieResult := fun rid q =>
  { status := "success", response := some ("r " ++ rid ++ q),
    conversation_id := some rid, message_id := some "m2" }

/-- Status strings on which the polling loop stops. -/
def terminalStatuses : List String :=
  ["COMPLETED", "SUCCESS", "FINISHED", "FAILED", "ERROR"]

/-! ## Helper lemmas -/

theorem joinWith_append_single (sep x : String) :
    ∀ xs : List String, xs ≠ [] →
      joinWith sep (xs ++ [x]) = joinWith sep xs ++ sep ++ x := by
  intro xs
  induction xs with
  | nil => intro hx; exact absurd rfl hx
  | cons a t ih =>
    intro _
    cases t with
    | nil => rfl
    | cons b t2 =>
      have ih2 := ih (by simp)
      show joinWith sep (a :: ((b :: t2) ++ [x])) = _
      have e1 : joinWith sep (a :: ((b :: t2) ++ [x])) =
          a ++ sep ++ joinWith sep ((b :: t2) ++ [x]) := rfl
      have e2 : joinWith sep (a :: b :: t2) = a ++ sep ++ joinWith sep (b :: t2) := rfl
      rw [e1, ih2, e2]
      simp [String.append_assoc]

theorem tableBody_ne_nil (columns0 : List String) (hd : List Scalar)
    (shown : List (List Scalar)) : tableBody columns0 hd shown ≠ [] := by
  simp [tableBody]

theorem replaceAllFuel_le (pat rep : List Char) :
    ∀ (f : Nat) (s : List Char), s.length ≤ f →
      replaceAllFuel pat rep f s = replaceAllFuel pat rep s.length s := by
  intro f
  induction f using Nat.strong_induction_on with
  | _ f ih =>
    intro s hs
    match f, s with
    | 0, s =>
      have h0 : s = [] := by
        cases s with
        | nil => rfl
        | cons a t => simp at hs
      subst h0
      rfl
    | f + 1, [] => rfl
    | f + 1, c :: rest =>
      simp only [List.length_cons]
      by_cases hb : pat ≠ [] ∧ isPre pat (c :: rest) = true
      · simp only [replaceAllFuel, if_pos hb]
        have hp1 : 0 < pat.length := List.length_pos.mpr hb.1
        have hd : ((c :: rest).drop pat.length).length ≤ rest.length := by
          simp only [List.length_drop, List.length_cons]
          simp only [List.length_cons] at hs
          omega
        have hr : rest.length ≤ f := by
          simp only [List.length_cons] at hs
          omega
        rw [ih f (Nat.lt_succ_self f) _ (le_trans hd hr),
          ih rest.length (Nat.lt_succ_of_le hr) _ hd]
      · simp only [replaceAllFuel, if_neg hb]
        have hr : rest.length ≤ f := by
          simp only [List.length_cons] at hs
          omega
        rw [ih f (Nat.lt_succ_self f) rest hr,
          ih rest.length (Nat.lt_succ_of_le hr) rest le_rfl]

theorem replaceAll_nil (pat rep : List Char) : replaceAll pat rep [] = [] := rfl

theorem replaceAll_cons_pos (pat rep : List Char) (c : Char) (rest : List Char)
    (h1 : pat ≠ []) (h2 : isPre pat (c :: rest) = true) :
    replaceAll pat rep (c :: rest) =
      rep ++ replaceAll pat rep ((c :: rest).drop pat.length) := by
  show replaceAllFuel pat rep (rest.length + 1) (c :: rest) = _
  simp only [replaceAllFuel, if_pos (And.intro h1 h2)]
  have hd : ((c :: rest).drop pat.length).length ≤ rest.length := by
    have hp1 : 0 < pat.length := List.length_pos.mpr h1
    simp only [List.length_drop, List.length_cons]
    omega
  rw [replaceAllFuel_le pat rep rest.length _ hd]
  rfl

theorem replaceAll_cons_neg (pat rep : List Char) (c : Char) (rest : List Char)
    (h : ¬(pat ≠ [] ∧ isPre pat (c :: rest) = true)) :
    replaceAll pat rep (c :: rest) = c :: replaceAll pat rep rest := by
  show replaceAllFuel pat rep (rest.length + 1) (c :: rest) = _
  simp only [replaceAllFuel, if_neg h]
  rfl

/-- A non-empty, space-free string that is a prefix of a space-replaced text
was already a prefix of the original text (the replacement only inserts
spaces, which such a prefix cannot cross). -/
theorem isPre_replaceAll (mt : List Char) :
    ∀ (w u : List Char), u ≠ [] → ' ' ∉ u →
      isPre u (replaceAll mt [' '] w) = true → isPre u w = true := by
  intro w
  induction w with
  | nil =>
    intro u hu _ hp
    rw [replaceAll_nil] at hp
    cases u with
    | nil => exact absurd rfl hu
    | cons u0 us => simp [isPre] at hp
  | cons c rest ih =>
    intro u hu husp hp
    by_cases hb : mt ≠ [] ∧ isPre mt (c :: rest) = true
    · rw [replaceAll_cons_pos mt [' '] c rest hb.1 hb.2] at hp
      cases u with
      | nil => exact absurd rfl hu
      | cons u0 us =>
        simp only [List.singleton_append, isPre, Bool.and_eq_true, beq_iff_eq] at hp
        exact absurd (hp.1 ▸ List.mem_cons_self u0 us) (by simpa [hp.1] using husp)
    · rw [replaceAll_cons_neg mt [' '] c rest hb] at hp
      cases u with
      | nil => exact absurd rfl hu
      | cons u0 us =>
        simp only [isPre, Bool.and_eq_true, beq_iff_eq] at hp
        obtain ⟨rfl, hrest⟩ := hp
        cases us with
        | nil => simp [isPre]
        | cons v vs =>
          have husp' : ' ' ∉ v :: vs := fun hm => husp (List.mem_cons_of_mem _ hm)
          have := ih (v :: vs) (by simp) husp' hrest
          simp [isPre, this]

/-- Python `str.replace(mt, ' ')` leaves no occurrence of `mt` behind when `mt` is
non-empty and contains no space. -/
theorem containsSeq_replaceAll (mt : List Char) (hne : mt ≠ []) (hsp : ' ' ∉ mt) :
    ∀ s, containsSeq mt (replaceAll mt [' '] s) = false := by
  have main : ∀ n (s : List Char), s.length ≤ n →
      containsSeq mt (replaceAll mt [' '] s) = false := by
    intro n
    induction n with
    | zero =>
      intro s hs
      have hs0 : s = [] := by
        cases s with
        | nil => rfl
        | cons a t => simp at hs
      subst hs0
      rw [replaceAll_nil]
      simp [containsSeq, List.isEmpty_iff, hne]
    | succ n ih =>
      intro s hs
      cases s with
      | nil =>
        rw [replaceAll_nil]
        simp [containsSeq, List.isEmpty_iff, hne]
      | cons c rest =>
        by_cases hb : mt ≠ [] ∧ isPre mt (c :: rest) = true
        · rw [replaceAll_cons_pos mt [' '] c rest hb.1 hb.2]
          have hdroplen : ((c :: rest).drop mt.length).length ≤ n := by
            have h1 : 0 < mt.length := List.length_pos.mpr hne
            simp only [List.length_drop, List.length_cons]
            simp only [List.length_cons] at hs
            omega
          have hrec := ih _ hdroplen
          simp only [List.singleton_append, containsSeq, Bool.or_eq_false_iff]
          refine ⟨?_, hrec⟩
          cases mt with
          | nil => exact absurd rfl hne
          | cons m0 ms =>
            have hm0 : m0 ≠ ' ' := fun he => hsp (he ▸ List.mem_cons_self m0 ms)
            simp [isPre, hm0]
        · rw [replaceAll_cons_neg mt [' '] c rest hb]
          have hrec := ih rest (by simp only [List.length_cons] at hs; omega)
          simp only [containsSeq, Bool.or_eq_false_iff]
          refine ⟨?_, hrec⟩
          cases hcase : isPre mt (c :: replaceAll mt [' '] rest) with
          | false => rfl
          | true =>
            exfalso
            cases mt with
            | nil => exact hne rfl
            | cons m0 ms =>
              simp only [isPre, Bool.and_eq_true, beq_iff_eq] at hcase
              obtain ⟨heq, hms⟩ := hcase
              cases ms with
              | nil =>
                exact hb ⟨hne, by simp [isPre, heq]⟩
              | cons v vs =>
                have hvs : ' ' ∉ v :: vs := fun hm => hsp (List.mem_cons_of_mem _ hm)
                have hp2 := isPre_replaceAll (m0 :: v :: vs) rest (v :: vs) (by simp) hvs hms
                exact hb ⟨hne, by simp [isPre, heq, hp2]⟩
  exact fun s => main s.length s le_rfl

theorem ConvMap.get_eraseKey_of_ne (k k' : String) (h : k' ≠ k) :
    ∀ m : ConvMap, ConvMap.get (ConvMap.eraseKey k m) k' = ConvMap.get m k' := by
  intro m
  induction m with
  | nil => rfl
  | cons a t ih =>
    by_cases hk : a.1 = k
    · simp only [ConvMap.eraseKey, if_pos hk]
      have ha : ¬ a.1 = k' := fun he => h (he.symm.trans hk)
      simp only [ConvMap.get, if_neg ha]
    · simp only [ConvMap.eraseKey, if_neg hk]
      by_cases ha : a.1 = k'
      · simp only [ConvMap.get, if_pos ha]
      · simp only [ConvMap.get, if_neg ha, ih]

theorem ConvMap.get_set (m : ConvMap) (k v k' : String) :
    ConvMap.get (ConvMap.set m k v) k' =
      if k' = k then some v else ConvMap.get m k' := by
  have hstep : ConvMap.get (ConvMap.set m k v) k' =
      if k = k' then some v else ConvMap.get (ConvMap.eraseKey k m) k' := rfl
  rw [hstep]
  by_cases h : k' = k
  · rw [if_pos h.symm, if_pos h]
  · rw [if_neg (fun he => h he.symm), if_neg h]
    exact ConvMap.get_eraseKey_of_ne k k' h m

theorem ConvMap.mem_eraseKey {p : String × String} (k : String) :
    ∀ m : ConvMap, p ∈ ConvMap.eraseKey k m → p ∈ m := by
  intro m
  induction m with
  | nil => intro hm; simp [ConvMap.eraseKey] at hm
  | cons a t ih =>
    by_cases hk : a.1 = k
    · simp only [ConvMap.eraseKey, if_pos hk]
      exact fun hm => List.mem_cons_of_mem _ hm
    · simp only [ConvMap.eraseKey, if_neg hk]
      intro hm
      rcases List.mem_cons.mp hm with h1 | h2
      · exact h1 ▸ List.mem_cons_self _ _
      · exact List.mem_cons_of_mem _ (ih h2)

theorem ConvMap.wf_get {m : ConvMap} (hwf : ConvMap.wf m = true) {k v : String}
    (h : ConvMap.get m k = some v) : v ≠ "" := by
  induction m with
  | nil => cases h
  | cons a t ih =>
    have hvals := List.all_eq_true.mp hwf
    simp only [ConvMap.get] at h
    by_cases ha : a.1 = k
    · rw [if_pos ha] at h
      cases h
      simpa using hvals a (List.mem_cons_self _ _)
    · rw [if_neg ha] at h
      exact ih (List.all_eq_true.mpr (fun x hx => hvals x (List.mem_cons_of_mem _ hx))) h

theorem ConvMap.wf_set {m : ConvMap} (hwf : ConvMap.wf m = true) {k v : String}
    (hv : v ≠ "") : ConvMap.wf (ConvMap.set m k v) = true := by
  rw [ConvMap.wf, List.all_eq_true]
  intro p hp
  rcases List.mem_cons.mp hp with h1 | h2
  · subst h1; simpa using hv
  · exact List.all_eq_true.mp hwf p (ConvMap.mem_eraseKey k m h2)


theorem pollForResponse_all_nonterminal (qres : String → Option ResultData) :
    ∀ l : List (Except ExcInfo MsgPayload),
      (∀ x ∈ l, ∃ p, x = .ok p ∧ p.status ∉ terminalStatuses) →
      pollForResponse qres l = .answer pollTimeoutMessage := by
  intro l
  induction l with
  | nil => intro _; rfl
  | cons x rest ih =>
    intro h
    obtain ⟨p, rfl, hst⟩ := h x (List.mem_cons_self _ _)
    have ihr := ih (fun y hy => h y (List.mem_cons_of_mem _ hy))
    have h1 : ¬ p.status ∈ (["COMPLETED", "SUCCESS", "FINISHED"] : List String) := by
      simp only [terminalStatuses, List.mem_cons, List.mem_singleton] at hst
      simp only [List.mem_cons, List.mem_singleton]
      tauto
    have h2 : ¬ p.status ∈ (["FAILED", "ERROR"] : List String) := by
      simp only [terminalStatuses, List.mem_cons, List.mem_singleton] at hst
      simp only [List.mem_cons, List.mem_singleton]
      tauto
    simp only [pollForResponse, if_neg h1, if_neg h2]
    split
    · exact ihr
    · exact ihr

theorem renderTable_truncate (columns0 : List String) (r : List Scalar)
    (rs : List (List Scalar)) (h : 10 < (r :: rs).length) :
    renderTable columns0 (r :: rs) =
      renderTable columns0 ((r :: rs).take 10) ++ "\n" ++
        ("\n(" ++ toString ((r :: rs).length - 10) ++ " more rows...)") := by
  have hlen10 : ((r :: rs).take 10).length = 10 := by
    rw [List.length_take]
    omega
  have htt : ((r :: rs).take 10).take 10 = (r :: rs).take 10 := by
    rw [List.take_take]
    norm_num
  have hhead : ((r :: rs).take 10).headD [] = (r :: rs).headD [] := by
    rw [show (10 : Nat) = 9 + 1 by norm_num, List.take_succ_cons]
    rfl
  simp only [renderTable]
  rw [if_pos h, if_neg (by omega : ¬ ((r :: rs).take 10).length > 10), htt, hhead]
  exact joinWith_append_single _ _ _ (tableBody_ne_nil _ _ _)

theorem format_query_result_truncate (mf : Option ManifestObj) (r : List Scalar)
    (rs : List (List Scalar)) (h : 10 < (r :: rs).length) :
    format_query_result ⟨some ⟨mf, some ⟨some (r :: rs)⟩⟩⟩ =
      format_query_result ⟨some ⟨mf, some ⟨some ((r :: rs).take 10)⟩⟩⟩ ++ "\n" ++
        ("\n(" ++ toString ((r :: rs).length - 10) ++ " more rows...)") := by
  have htake : (r :: rs).take 10 = r :: rs.take 9 := by
    rw [show (10 : Nat) = 9 + 1 by norm_num, List.take_succ_cons]
  have hmain := renderTable_truncate (manifestColumns mf) r rs h
  rw [htake] at hmain ⊢
  exact hmain

/-! ## Claim theorems -/

/-- C1: for every polled payload, a status among COMPLETED/SUCCESS/FINISHED
returns the assembled answer on that very attempt (whatever attempts
remain); a status outside both the terminal and the in-progress sets makes
the loop retry on the remaining attempts; and a whole budget of such
unknown-status payloads ends in the timeout answer, never an early abort. -/
theorem claim_C1 (qres : String → Option ResultData) (p : MsgPayload)
    (rest : List (Except ExcInfo MsgPayload)) :
    (p.status ∈ (["COMPLETED", "SUCCESS", "FINISHED"] : List String) →
      pollForResponse qres (.ok p :: rest) =
        .answer (extract_response_with_attachments qres p)) ∧
    (p.status ∉ terminalStatuses → p.status ∉ progressStatuses →
      pollForResponse qres (.ok p :: rest) = pollForResponse qres rest) ∧
    (∀ l : List (Except ExcInfo MsgPayload),
      (∀ x ∈ l, ∃ q, x = .ok q ∧ q.status ∉ terminalStatuses ∧ q.status ∉ progressStatuses) →
      pollForResponse qres l = .answer pollTimeoutMessage) := by
  refine ⟨?_, ?_, ?_⟩
  · intro h
    simp only [pollForResponse, if_pos h]
  · intro h1 h2
    have hs : ¬ p.status ∈ (["COMPLETED", "SUCCESS", "FINISHED"] : List String) := by
      simp only [terminalStatuses, List.mem_cons, List.mem_singleton] at h1
      simp only [List.mem_cons, List.mem_singleton]
      tauto
    have hf : ¬ p.status ∈ (["FAILED", "ERROR"] : List String) := by
      simp only [terminalStatuses, List.mem_cons, List.mem_singleton] at h1
      simp only [List.mem_cons, List.mem_singleton]
      tauto
    have hp : ¬ p.status ∈ (["EXECUTING", "QUERYING_HISTORY", "RUNNING", "PENDING"] : List String) := h2
    simp only [pollForResponse, if_neg hs, if_neg hf, if_neg hp]
  · intro l hl
    exact pollForResponse_all_nonterminal qres l
      (fun x hx => (hl x hx).imp (fun q hq => ⟨hq.1, hq.2.1⟩))

theorem claim_C1_witness :
    pollForResponse noQres [.ok pollDoneP] =
      .answer (extract_response_with_attachments noQres pollDoneP) ∧
    pollForResponse noQres [.ok pollOddP, .ok pollDoneP] =
      pollForResponse noQres [.ok pollDoneP] ∧
    pollForResponse noQres [.ok pollOddP, .ok pollOddP] = .answer pollTimeoutMessage := by
  refine ⟨(claim_C1 noQres pollDoneP []).1 (by decide),
    (claim_C1 noQres pollOddP [.ok pollDoneP]).2.1 (by decide) (by decide),
    (claim_C1 noQres pollOddP []).2.2 [.ok pollOddP, .ok pollOddP] ?_⟩
  intro x hx
  simp only [List.mem_cons, List.not_mem_nil, or_false] at hx
  rcases hx with rfl | rfl <;> exact ⟨pollOddP, rfl, by decide, by decide⟩

/-- C2: a full budget of attempts that never sees a terminal status returns
the timeout message (default budget 30); a FAILED/ERROR status returns the
remote-failure message embedding the payload's error message (defaulting to
"Unknown error"); and the timeout message differs from every
remote-failure message. -/
theorem claim_C2 :
    pollDefaultMaxAttempts = 30 ∧
    (∀ (fetch : Nat → Except ExcInfo MsgPayload) (qres : String → Option ResultData) (n : Nat),
      (∀ i, i < n → ∃ p, fetch i = .ok p ∧ p.status ∉ terminalStatuses) →
      pollForResponseN fetch qres n = .answer pollTimeoutMessage) ∧
    (∀ (qres : String → Option ResultData) (p : MsgPayload)
        (rest : List (Except ExcInfo MsgPayload)),
      p.status ∈ (["FAILED", "ERROR"] : List String) →
      pollForResponse qres (.ok p :: rest) =
        .answer (genieErrorMessage (p.errorMessage.getD "Unknown error"))) ∧
    (∀ em : String, genieErrorMessage em ≠ pollTimeoutMessage) := by
  refine ⟨rfl, ?_, ?_, ?_⟩
  · intro fetch qres n h
    unfold pollForResponseN
    apply pollForResponse_all_nonterminal
    intro x hx
    obtain ⟨i, hi, rfl⟩ := List.mem_map.mp hx
    exact h i (List.mem_range.mp hi)
  · intro qres p rest h
    simp only [List.mem_cons, List.not_mem_nil, or_false] at h
    rcases h with h | h
    · simp only [pollForResponse, h]
      rw [if_neg (show ¬ ("FAILED" : String) ∈
            (["COMPLETED", "SUCCESS", "FINISHED"] : List String) by decide),
        if_pos (show ("FAILED" : String) ∈ (["FAILED", "ERROR"] : List String) by decide)]
    · simp only [pollForResponse, h]
      rw [if_neg (show ¬ ("ERROR" : String) ∈
            (["COMPLETED", "SUCCESS", "FINISHED"] : List String) by decide),
        if_pos (show ("ERROR" : String) ∈ (["FAILED", "ERROR"] : List String) by decide)]
  · intro em h
    rw [genieErrorMessage] at h
    have h1 : ("Sorry, Genie encountered an error: ").data ++ em.data =
        pollTimeoutMessage.data := by
      rw [← String.data_append]
      exact congrArg String.data h
    have h3 := congrArg (List.take 35) h1
    rw [show (35 : Nat) = ("Sorry, Genie encountered an error: ").data.length by decide] at h3
    rw [List.take_left] at h3
    exact absurd h3 (by decide)

theorem claim_C2_witness :
    pollForResponseN (fun _ => .ok pollOddP) noQres 30 = .answer pollTimeoutMessage ∧
    pollForResponse noQres [.ok pollFailP] =
      .answer (genieErrorMessage (pollFailP.errorMessage.getD "Unknown error")) ∧
    genieErrorMessage "x" ≠ pollTimeoutMessage :=
  ⟨claim_C2.2.1 (fun _ => .ok pollOddP) noQres 30 (fun _ _ => ⟨pollOddP, rfl, by decide⟩),
   claim_C2.2.2.1 noQres pollFailP [] (by decide),
   claim_C2.2.2.2 "x"⟩

/-- C5: counterexample — an explanatory text of exactly 10 characters is
non-empty, not shorter than 10 characters, and different from the question,
so the claim says it is included; the code's `len(text_content) > 10` test
skips it and assembly falls through to the apology fallback. -/
theorem claim_C5_counterexample :
    attachmentText c5Attachment = some "0123456789" ∧
    ("0123456789" : String) ≠ "" ∧
    ¬ ("0123456789" : String).length < 10 ∧
    ("0123456789" : String) ≠ "q" ∧
    extract_response_with_attachments noQres c5Payload = extractFallbackMessage := by
  refine ⟨by decide, by decide, by decide, by decide, by decide⟩

/-- C5 (amended): an attachment's extracted explanatory text is included in
the assembled answer iff it is strictly longer than 10 characters and not
identical to the original user question; text of length ≤ 10 (hence also
empty text) or equal to the question is skipped. -/
theorem claim_C5 (qres : String → Option ResultData) (uq : String)
    (a : Attachment) (tc : String) (htc : attachmentText a = some tc)
    (hid : effectiveAttachmentId a = none) :
    (tc ≠ uq ∧ 10 < tc.length →
      extract_response_with_attachments qres ⟨"COMPLETED", none, uq, [some a]⟩ = tc) ∧
    (tc = uq ∨ tc.length ≤ 10 →
      extract_response_with_attachments qres ⟨"COMPLETED", none, uq, [some a]⟩ =
        extractFallbackMessage) := by
  constructor
  · rintro ⟨hne, hlen⟩
    have hne0 : tc ≠ "" := by
      intro h0
      rw [h0] at hlen
      simp at hlen
    have hcond : tc ≠ "" ∧ tc ≠ uq ∧ tc.length > 10 := ⟨hne0, hne, hlen⟩
    simp only [extract_response_with_attachments, List.foldl, htc, hid, if_pos hcond,
      List.nil_append]
    rw [if_pos (show ([tc] : List String) ≠ [] by simp)]
    rfl
  · intro hcase
    have hneg : ¬ (tc ≠ "" ∧ tc ≠ uq ∧ tc.length > 10) := by
      rcases hcase with h1 | h2
      · intro hh
        exact hh.2.1 h1
      · intro hh
        omega
    simp only [extract_response_with_attachments, List.foldl, htc, hid, if_neg hneg]
    rw [if_neg (show ¬ (([] : List String) ≠ []) by simp)]

theorem claim_C5_witness :
    attachmentText c5wAttachment = some "a sufficiently long explanation" ∧
    extract_response_with_attachments noQres
      ⟨"COMPLETED", none, "q", [some c5wAttachment]⟩ =
        "a sufficiently long explanation" ∧
    extract_response_with_attachments noQres
      ⟨"COMPLETED", none, "q", [some c5Attachment]⟩ = extractFallbackMessage :=
  ⟨by decide,
   (claim_C5 noQres "q" c5wAttachment "a sufficiently long explanation"
      (by decide) (by decide)).1 (by decide),
   (claim_C5 noQres "q" c5Attachment "0123456789"
      (by decide) (by decide)).2 (by decide)⟩

/-- C6: counterexample — on columns `["id","name"]` and rows
`[[1,"a"],[2,None]]` the rendered rows are padded to the column widths
(`"1  | a   "`, `"2  | NULL"`), so the claimed literal row renderings
`"1 | a"` and `"2 | NULL"` occur nowhere in the output. -/
theorem claim_C6_counterexample :
    strContains (format_query_result c6Data) "1 | a" = false ∧
    strContains (format_query_result c6Data) "2 | NULL" = false := by
  refine ⟨by decide, by decide⟩

/-- C6 (amended): the rendered table for columns `["id","name"]` and rows
`[[1,"a"],[2,None]]` consists of a header line `"id | name"`, the
`-`/`+` separator `"---+-----"` sized to the column widths 2 and 4, the
width-padded row renderings `"1  | a   "` and `"2  | NULL"` (the null cell
rendered as the literal string NULL), and no row-truncation suffix. -/
theorem claim_C6 :
    format_query_result c6Data =
      "\n```\nid | name\n---+-----\n1  | a   \n2  | NULL\n```" ∧
    strContains (format_query_result c6Data) "id | name" = true ∧
    strContains (format_query_result c6Data) "---+-----" = true ∧
    strContains (format_query_result c6Data) "1  | a   " = true ∧
    strContains (format_query_result c6Data) "2  | NULL" = true ∧
    strContains (format_query_result c6Data) "NULL" = true ∧
    strContains (format_query_result c6Data) "more rows" = false := by
  refine ⟨by decide, by decide, by decide, by decide, by decide, by decide, by decide⟩

/-- C7: a result with more than 10 rows renders exactly as the same result
truncated to its first 10 rows (so widths and row lines come from those
rows alone) followed by the literal suffix `"(K more rows...)"` with
K = total − 10; in particular 15 single-cell rows yield
`"(5 more rows...)"` and row 11 onwards is not rendered. -/
theorem claim_C7 :
    (∀ (mf : Option ManifestObj) (r : List Scalar) (rs : List (List Scalar)),
      10 < (r :: rs).length →
        format_query_result ⟨some ⟨mf, some ⟨some (r :: rs)⟩⟩⟩ =
          format_query_result ⟨some ⟨mf, some ⟨some ((r :: rs).take 10)⟩⟩⟩ ++ "\n" ++
            ("\n(" ++ toString ((r :: rs).length - 10) ++ " more rows...)")) ∧
    strContains (format_query_result c7Data) "(5 more rows...)" = true ∧
    strContains (format_query_result c7Data) "11" = false := by
  refine ⟨format_query_result_truncate, by decide, by decide⟩

theorem claim_C7_witness :
    format_query_result ⟨some ⟨none, some ⟨some ([Scalar.int 0] :: c7wRest)⟩⟩⟩ =
      format_query_result
          ⟨some ⟨none, some ⟨some (([Scalar.int 0] :: c7wRest).take 10)⟩⟩⟩ ++ "\n" ++
        ("\n(" ++ toString (([Scalar.int 0] :: c7wRest).length - 10) ++ " more rows...)") :=
  claim_C7.1 none [Scalar.int 0] c7wRest (by decide)

theorem ask_question_conversation_id_some (space_id client_id : String)
    (start : StartOutcome) (fetch : Nat → Except ExcInfo MsgPayload)
    (qres : String → Option ResultData) (c : String)
    (h : (ask_question space_id client_id start fetch qres).conversation_id = some c) :
    ∃ m, start = .ok c m ∧ c ≠ "" ∧ m ≠ "" := by
  cases start with
  | jsonError code msg =>
    simp only [ask_question] at h
    split_ifs at h <;> simp at h
  | rawError code body =>
    simp only [ask_question] at h
    simp at h
  | exn e =>
    simp only [ask_question, askExceptBranch] at h
    split_ifs at h <;> simp at h
  | ok cid mid =>
    simp only [ask_question] at h
    by_cases hid : cid = "" ∨ mid = ""
    · rw [if_pos hid] at h
      simp at h
    · rw [if_neg hid] at h
      push_neg at hid
      cases hp : pollForResponseN fetch qres pollDefaultMaxAttempts with
      | raised e =>
        rw [hp] at h
        simp only [askExceptBranch] at h
        split_ifs at h <;> simp at h
      | answer t =>
        rw [hp] at h
        have hcc : cid = c := by simpa using h
        subst hcc
        exact ⟨mid, rfl, hid.1, hid.2⟩

theorem ask_question_conversation_id_of_error (space_id client_id : String)
    (start : StartOutcome) (fetch : Nat → Except ExcInfo MsgPayload)
    (qres : String → Option ResultData)
    (herr : isStartError start = true) :
    (ask_question space_id client_id start fetch qres).conversation_id = none := by
  cases hc : (ask_question space_id client_id start fetch qres).conversation_id with
  | none => rfl
  | some c =>
    obtain ⟨m, rfl, hcne, hmne⟩ :=
      ask_question_conversation_id_some space_id client_id start fetch qres c hc
    simp only [isStartError] at herr
    simp at herr
    rcases herr with h | h
    · exact (hcne h).elim
    · exact (hmne h).elim

/-- C3: a local conversation id bound in the (well-formed, i.e. reachable)
conversation map makes the handler continue the bound remote conversation
with the user's text — the start operation is not invoked and the map is
unchanged; an unbound id starts a new conversation, and a start result with
a truthy remote conversation id creates the binding; every write preserves
well-formedness (bindings are never empty), so the rule applies to every
map the bot can actually reach from its initially empty map. -/
theorem claim_C3 (conversations : ConvMap) (conversation_id user_message : String)
    (ask : GenieResult) (cont : String → String → GenieResult) :
    (ConvMap.wf conversations = true →
      ∀ rid, ConvMap.get conversations conversation_id = some rid →
        (on_message_activity_core conversations conversation_id user_message ask cont).made =
            .continued rid user_message ∧
        (on_message_activity_core conversations conversation_id user_message ask cont).conversations =
            conversations) ∧
    (ConvMap.get conversations conversation_id = none →
      (on_message_activity_core conversations conversation_id user_message ask cont).made =
        .started user_message) ∧
    (ConvMap.get conversations conversation_id = none →
      ∀ c, ask.conversation_id = some c → c ≠ "" →
        ConvMap.get
          (on_message_activity_core conversations conversation_id user_message ask cont).conversations
          conversation_id = some c) ∧
    (ConvMap.wf conversations = true →
      ConvMap.wf
        (on_message_activity_core conversations conversation_id user_message ask cont).conversations =
        true) := by
  refine ⟨?_, ?_, ?_, ?_⟩
  · intro hwf rid hrid
    have hrne : rid ≠ "" := ConvMap.wf_get hwf hrid
    constructor
    · simp only [on_message_activity_core, hrid, if_pos hrne]
    · simp only [on_message_activity_core, hrid, if_pos hrne]
  · intro hget
    simp only [on_message_activity_core, hget]
  · intro hget c hc hcne
    simp only [on_message_activity_core, hget, hc, if_pos hcne, ConvMap.get_set,
      eq_self_iff_true, if_true]
  · intro hwf
    simp only [on_message_activity_core]
    cases hget : ConvMap.get conversations conversation_id with
    | some rid =>
      by_cases hr : rid ≠ ""
      · simp only [if_pos hr]
        exact hwf
      · simp only [if_neg hr]
        cases hc : ask.conversation_id with
        | some c =>
          by_cases hcne : c ≠ ""
          · simp only [if_pos hcne]
            exact ConvMap.wf_set hwf hcne
          · simp only [if_neg hcne]
            exact hwf
        | none => exact hwf
    | none =>
      cases hc : ask.conversation_id with
      | some c =>
        by_cases hcne : c ≠ ""
        · simp only [if_pos hcne]
          exact ConvMap.wf_set hwf hcne
        · simp only [if_neg hcne]
          exact hwf
      | none => exact hwf

theorem claim_C3_witness :
    (on_message_activity_core [("L1", "R1")] "L1" "q" askOkC3 contC3).made =
      .continued "R1" "q" ∧
    ConvMap.get
      (on_message_activity_core [] "L1" "q" askOkC3 contC3).conversations "L1" = some "c1" :=
  ⟨((claim_C3 [("L1", "R1")] "L1" "q" askOkC3 contC3).1 (by decide) "R1" (by decide)).1,
   (claim_C3 [] "L1" "q" askOkC3 contC3).2.2.1 rfl "c1" (by decide) (by decide)⟩

/-- C4: when the incoming message's local conversation id is unbound and
the start-conversation call errors (HTTP error, invalid/ids-missing
response, or exception), the binding map is left exactly unchanged; and in
general the handler changes the map only when the start call succeeded with
both ids non-empty — a binding is written only after a successful start. -/
theorem claim_C4 (space_id client_id : String) (start : StartOutcome)
    (fetch : Nat → Except ExcInfo MsgPayload) (qres : String → Option ResultData)
    (conversations : ConvMap) (conversation_id user_message : String)
    (cont : String → String → GenieResult) :
    (ConvMap.get conversations conversation_id = none → isStartError start = true →
      (on_message_activity_core conversations conversation_id user_message
          (ask_question space_id client_id start fetch qres) cont).conversations =
        conversations) ∧
    ((on_message_activity_core conversations conversation_id user_message
          (ask_question space_id client_id start fetch qres) cont).conversations ≠
        conversations →
      ∃ c m, start = .ok c m ∧ c ≠ "" ∧ m ≠ "") := by
  constructor
  · intro hget herr
    have hcid := ask_question_conversation_id_of_error space_id client_id start fetch qres herr
    simp only [on_message_activity_core, hget, hcid]
  · intro hne
    cases hget : ConvMap.get conversations conversation_id with
    | some rid =>
      by_cases hr : rid ≠ ""
      · exfalso
        apply hne
        simp only [on_message_activity_core, hget, if_pos hr]
      · cases hc : (ask_question space_id client_id start fetch qres).conversation_id with
        | some c =>
          by_cases hcne : c ≠ ""
          · obtain ⟨m, hmm, h1, h2⟩ :=
              ask_question_conversation_id_some space_id client_id start fetch qres c hc
            exact ⟨c, m, hmm, h1, h2⟩
          · exfalso
            apply hne
            simp only [on_message_activity_core, hget, if_neg hr, hc, if_neg hcne]
        | none =>
          exfalso
          apply hne
          simp only [on_message_activity_core, hget, if_neg hr, hc]
    | none =>
      cases hc : (ask_question space_id client_id start fetch qres).conversation_id with
      | some c =>
        by_cases hcne : c ≠ ""
        · obtain ⟨m, hmm, h1, h2⟩ :=
            ask_question_conversation_id_some space_id client_id start fetch qres c hc
          exact ⟨c, m, hmm, h1, h2⟩
        · exfalso
          apply hne
          simp only [on_message_activity_core, hget, hc, if_neg hcne]
      | none =>
        exfalso
        apply hne
        simp only [on_message_activity_core, hget, hc]

theorem claim_C4_witness :
    (on_message_activity_core [] "L1" "q"
        (ask_question "sp" "cl" startExn fetchBoom noQres) contC3).conversations = [] :=
  (claim_C4 "sp" "cl" startExn fetchBoom noQres [] "L1" "q" contC3).1 rfl (by decide)

/-- C8: mention normalization replaces every literal mention-markup
occurrence collected from the entities with a space and trims the result,
additionally stripping a leading (possibly `@`-prefixed) occurrence of the
bot's display name; the spec's example `"<at>Bot</at> what is revenue?"`
with markup `"<at>Bot</at>"` yields exactly `"what is revenue?"`, a plain
`"@Bot: ..."` prefix is stripped via the recipient name, the result is
trimmed, and the replacement step removes every occurrence of a (space-free,
non-empty) markup string. -/
theorem claim_C8 :
    extract_user_message "<at>Bot</at> what is revenue?"
        [⟨some "mention", some "<at>Bot</at>", some "Bot"⟩] "Bot" = "what is revenue?" ∧
    extract_user_message "@Bot: what is revenue?" [] "Bot" = "what is revenue?" ∧
    extract_user_message "  what is revenue?  " [] "" = "what is revenue?" ∧
    (∀ mt s : List Char, mt ≠ [] → ' ' ∉ mt →
      containsSeq mt (replaceAll mt [' '] s) = false) :=
  ⟨by decide, by decide, by decide,
   fun mt s h1 h2 => containsSeq_replaceAll mt h1 h2 s⟩

theorem claim_C8_witness :
    containsSeq "ab".data (replaceAll "ab".data [' '] "xabyab".data) = false :=
  claim_C8.2.2.2 "ab".data "xabyab".data (by decide) (by decide)

/-- C9: feedback with any of the three fields (rating, conversation id,
message id) missing or empty is rejected locally — no remote call is issued
and an apology is sent; when all three are present and non-empty the
feedback is transmitted to the remote API with the rating upper-cased. -/
theorem claim_C9 (fd : FeedbackData) (remote : Except ExcInfo Unit) :
    (¬ (truthyOpt fd.rating = true ∧ truthyOpt fd.conversation_id = true ∧
          truthyOpt fd.message_id = true) →
      (handle_feedback fd remote).remoteCall = none ∧
      (handle_feedback fd remote).sent =
        [.text "Sorry, couldn\x27t record your feedback."]) ∧
    (∀ r c m, fd = ⟨some r, some c, some m⟩ → r ≠ "" → c ≠ "" → m ≠ "" →
      (handle_feedback fd remote).remoteCall = some (c, m, r.toUpper)) := by
  constructor
  · intro h
    constructor
    · simp only [handle_feedback, if_neg h]
    · simp only [handle_feedback, if_neg h]
  · rintro r c m rfl hr hc hm
    cases remote with
    | ok u => simp [handle_feedback, send_feedback, truthyOpt, hr, hc, hm]
    | error e => simp [handle_feedback, send_feedback, truthyOpt, hr, hc, hm]

theorem claim_C9_witness :
    (handle_feedback ⟨some "positive", some "c1", none⟩ (.ok ())).remoteCall = none ∧
    (handle_feedback ⟨some "positive", some "c1", some "m1"⟩ (.ok ())).remoteCall =
      some ("c1", "m1", "positive".toUpper) :=
  ⟨((claim_C9 ⟨some "positive", some "c1", none⟩ (.ok ())).1 (by decide)).1,
   (claim_C9 ⟨some "positive", some "c1", some "m1"⟩ (.ok ())).2 "positive" "c1" "m1" rfl
     (by decide) (by decide) (by decide)⟩

/-- C10: counterexample — the start call returns both ids, but every poll
attempt raises, so the final attempt's exception propagates out of the
polling loop and `ask_question` returns status "error", not "success":
the status is not "success" for every polling outcome. -/
theorem claim_C10_counterexample :
    (ask_question "sp" "cl" (.ok "c1" "m1") fetchBoom noQres).status = "error" ∧
    ("error" : String) ≠ "success" := by
  refine ⟨by decide, by decide⟩

/-- C10 (amended): whenever the start call returns both ids (non-empty) and
polling returns a text — which is what happens both when the attempt budget
is exhausted (timeout text) and when the remote status is FAILED/ERROR
(failure text) — `ask_question` reports status "success" carrying that text,
the bot delivers it to the user as a normal answer with the feedback card
attached, and the conversation binding is still created for that local
conversation; only an exception escaping the final poll attempt produces an
error-status dictionary instead. -/
theorem claim_C10 (space_id client_id cid mid : String)
    (fetch : Nat → Except ExcInfo MsgPayload) (qres : String → Option ResultData)
    (t : String) (conversations : ConvMap) (local_id user_message : String)
    (cont : String → String → GenieResult)
    (hcid : cid ≠ "") (hmid : mid ≠ "")
    (hpoll : pollForResponseN fetch qres pollDefaultMaxAttempts = .answer t) :
    ask_question space_id client_id (.ok cid mid) fetch qres =
      { status := "success", response := some t,
        conversation_id := some cid, message_id := some mid } ∧
    (ConvMap.get conversations local_id = none →
      (on_message_activity_core conversations local_id user_message
          (ask_question space_id client_id (.ok cid mid) fetch qres) cont).sent =
        [.text t, .feedbackCard cid mid] ∧
      ConvMap.get
        (on_message_activity_core conversations local_id user_message
            (ask_question space_id client_id (.ok cid mid) fetch qres) cont).conversations
        local_id = some cid) := by
  have hids : ¬ (cid = "" ∨ mid = "") := by tauto
  have hask : ask_question space_id client_id (.ok cid mid) fetch qres =
      { status := "success", response := some t,
        conversation_id := some cid, message_id := some mid } := by
    simp only [ask_question, if_neg hids, hpoll]
  refine ⟨hask, fun hget => ⟨?_, ?_⟩⟩
  · simp only [on_message_activity_core, hget, hask, send_response_with_feedback]
    simp [hcid, hmid]
  · simp only [on_message_activity_core, hget, hask, if_pos hcid, ConvMap.get_set,
      eq_self_iff_true, if_true]

theorem claim_C10_witness :
    ask_question "sp" "cl" (.ok "c1" "m1") (fun _ => .ok pollFailP) noQres =
      { status := "success",
        response := some (genieErrorMessage "Unknown error"),
        conversation_id := some "c1", message_id := some "m1" } ∧
    (on_message_activity_core [] "L1" "q"
        (ask_question "sp" "cl" (.ok "c1" "m1") (fun _ => .ok pollFailP) noQres) contC3).sent =
      [.text (genieErrorMessage "Unknown error"), .feedbackCard "c1" "m1"] := by
  have h := claim_C10 "sp" "cl" "c1" "m1" (fun _ => .ok pollFailP) noQres
    (genieErrorMessage "Unknown error") [] "L1" "q" contC3 (by decide) (by decide) (by decide)
  exact ⟨h.1, (h.2 rfl).1⟩
